import Mathlib

/-!
Verification of the daemon communication subsystem: a shallow embedding of
the JSON-RPC protocol layer (`common/types/daemon.ts`), the `DaemonServer`
(`daemon/server.ts`), the `DaemonClient` (`daemon/client.ts`), the transport
implementations (`daemon/transport.ts`, `daemon/ipc-transport.ts`), the
child-process daemon entry point (`daemon-entry`), and the in-memory cron
scheduler (`daemon/scheduler.ts`).

Conventions of the embedding:
- JavaScript values carried in `params` / `result` are modelled by `JVal`.
- Thrown exceptions and rejected promises are modelled by `Except String`
  (carrying the error's message text, as the server only reads `.message`).
- The single-threaded event-loop is modelled by explicit event traces: each
  externally triggered action (a call, an inbound message, a timer firing,
  a close) is one event, processed atomically, exactly as the JS runtime
  runs each callback to completion.
- Wall-clock dates are modelled at minute resolution by `DateTime`
  (the scheduler zeroes seconds and milliseconds before matching); a single
  timezone (UTC) is assumed, so `toISOString` renders the same civil fields
  the `get*` accessors read.
-/

/-- JSON-style runtime values (the payloads of `params` / `result`). -/
inductive JVal where
  | null : JVal
  | bool (b : Bool) : JVal
  | num (n : Int) : JVal
  | str (s : String) : JVal
  | arr (elems : List JVal) : JVal
  | obj (fields : List (String × JVal)) : JVal

/-- A JSON-RPC id: `string | number` (daemon.ts line 28). -/
inductive RpcId where
  | str (s : String) : RpcId
  | num (n : Int) : RpcId
deriving DecidableEq

/-- The `JsonRpcError` shape (daemon.ts lines 46-50): `{code, message, data?}`;
`data` is never set by this subsystem and is omitted. -/
structure JsonRpcError where
  code : Int
  message : String

/-- One wire envelope. The TS messages are duck-typed objects; presence of a
property is modelled by `Option`. The protocol-version marker is the
`jsonrpc` field, fixed to "2.0" by every builder. -/
structure Msg where
  jsonrpc : String
  id : Option RpcId
  method : Option String
  params : Option JVal
  result : Option JVal
  error : Option JsonRpcError

/-- The fixed error-code table `JSON_RPC_ERRORS` (daemon.ts lines 59-71). -/
def METHOD_NOT_FOUND : Int := -32601

/-- The `JSON_RPC_ERRORS.INTERNAL_ERROR` code. -/
def INTERNAL_ERROR : Int := -32603

/-- Request built by `DaemonClient.call` (client.ts lines 63-68):
`{jsonrpc: '2.0', id, method, params}`. -/
def mkRequest (rid : RpcId) (method : String) (params : Option JVal) : Msg :=
  { jsonrpc := "2.0", id := some rid, method := some method,
    params := params, result := none, error := none }

/-- Response built by `DaemonServer.sendResult` (server.ts lines 107-114). -/
def mkResultResponse (rid : RpcId) (result : JVal) : Msg :=
  { jsonrpc := "2.0", id := some rid, method := none,
    params := none, result := some result, error := none }

/-- Response built by `DaemonServer.sendError` (server.ts lines 116-123). -/
def mkErrorResponse (rid : RpcId) (error : JsonRpcError) : Msg :=
  { jsonrpc := "2.0", id := some rid, method := none,
    params := none, result := none, error := some error }

/-- Notification built by `DaemonServer.notify` (server.ts lines 60-67). -/
def mkNotification (method : String) (params : Option JVal) : Msg :=
  { jsonrpc := "2.0", id := none, method := some method,
    params := params, result := none, error := none }

/-- The key/value pairs a wire envelope exposes on the channel: exactly the
properties present on the TS object. Used to state claims about wire field
names. -/
def Msg.toWire (m : Msg) : List (String × JVal) :=
  [("jsonrpc", JVal.str m.jsonrpc)]
    ++ (match m.id with
        | some (RpcId.num n) => [("id", JVal.num n)]
        | some (RpcId.str s) => [("id", JVal.str s)]
        | none => [])
    ++ (match m.method with | some s => [("method", JVal.str s)] | none => [])
    ++ (match m.params with | some v => [("params", v)] | none => [])
    ++ (match m.result with | some v => [("result", v)] | none => [])
    ++ (match m.error with
        | some e => [("error", JVal.obj [("code", JVal.num e.code), ("message", JVal.str e.message)])]
        | none => [])

/-! ## DaemonServer (server.ts) -/

/-- A registered method handler. The first argument is the current wall-clock
time `Date.now()` (needed by the built-in `daemon.ping`); the second is the
request's `params`. A thrown exception or rejected promise is `Except.error`
with the error's message text. -/
abbrev Handler : Type := Int → Option JVal → Except String JVal

/-- The server's `handlers` map, insertion-ordered like a JS `Map`. -/
abbrev HandlerMap : Type := List (String × Handler)

/-- JS `Map.set` semantics: replace in place if the key exists, else append
(server.ts line 54, `this.handlers.set(method, handler)`). -/
def registerMethod (hs : HandlerMap) (m : String) (h : Handler) : HandlerMap :=
  if hs.any (fun p => p.1 == m) then
    hs.map (fun p => if p.1 == m then (m, h) else p)
  else
    hs ++ [(m, h)]

/-- JS `Map.get` semantics (server.ts line 84). -/
def lookupHandler (hs : HandlerMap) (m : String) : Option Handler :=
  List.lookup m hs

/-- The state of a `DaemonServer`: its handler registry and `startTime`
(server.ts lines 33-34). The transport is external; the messages the server
sends are returned by `handleMessage`. -/
structure DaemonServer where
  handlers : HandlerMap
  startTime : Int

/-- Server construction (server.ts lines 36-48): records `startTime` and
auto-registers the built-in `daemon.ping` handler returning
`{status:'ok', uptime: now - startTime}`. -/
def pingHandler (startTime : Int) : Handler := fun now _ =>
  Except.ok (JVal.obj [("status", JVal.str "ok"), ("uptime", JVal.num (now - startTime))])

def mkServer (startTime : Int) : DaemonServer :=
  { handlers := registerMethod [] "daemon.ping" (pingHandler startTime),
    startTime := startTime }

/-- The body of `DaemonServer.handleMessage` (server.ts lines 77-105). Returns the
response the server sends, or `none` when the inbound message is not a
request. Total: a handler fault becomes an `INTERNAL_ERROR` response, it is
never re-raised. -/
def DaemonServer.handleMessage (st : DaemonServer) (now : Int) (msg : Msg) : Option Msg :=
  match msg.id, msg.method with
  | some rid, some m =>
    match lookupHandler st.handlers m with
    | none =>
      some (mkErrorResponse rid { code := METHOD_NOT_FOUND, message := "Method not found: " ++ m })
    | some h =>
      match h now msg.params with
      | Except.ok result => some (mkResultResponse rid result)
      | Except.error emsg =>
        some (mkErrorResponse rid { code := INTERNAL_ERROR, message := emsg })
  | _, _ => none

/-- The effect of `DaemonServer.notify` (server.ts lines 60-67): the notification the
server places on the transport. -/
def DaemonServer.notifyMsg (method : String) (params : Option JVal) : Msg :=
  mkNotification method params

/-! ## Child-process daemon entry (daemon-entry, `registerHandlers`) -/

/-- Read a string property of a params object (e.g. `params.taskId`); the TS
code accesses the typed property directly. -/
def strField (p : JVal) (key : String) : String :=
  match p with
  | JVal.obj kvs =>
    match List.lookup key kvs with
    | some (JVal.str s) => s
    | _ => ""
  | _ => ""

/-- Read an arbitrary property of a params object (e.g. `params.task`). -/
def jsonField (p : JVal) (key : String) : JVal :=
  match p with
  | JVal.obj kvs => (List.lookup key kvs).getD JVal.null
  | _ => JVal.null

/-- Read an optional property (e.g. `params.completedAt`). -/
def optField (p : JVal) (key : String) : Option JVal :=
  match p with
  | JVal.obj kvs => List.lookup key kvs
  | _ => none

/-- The out-of-scope `StorageAPI` collaborator contract. Each operation may
throw (`Except.error` carries the error's message). Mutating operations
return `Unit`; their effect on the store is outside this subsystem. -/
structure StorageAPI where
  getTask : String → Except String (Option JVal)
  getTasks : Unit → Except String (List JVal)
  saveTask : JVal → Except String Unit
  updateTaskStatus : String → JVal → Option JVal → Except String Unit
  updateTaskSummary : String → String → Except String Unit
  addTaskMessage : String → JVal → Except String Unit
  deleteTask : String → Except String Unit
  clearHistory : Unit → Except String Unit
  getTodosForTask : String → Except String (List JVal)

/-- Handler bodies registered by the daemon child-process entry point
(daemon-entry lines 45-101), one definition per `server.registerMethod`
call. JS `void` returns are modelled as `JVal.null`. -/
def taskGetHandler (storage : StorageAPI) : Handler := fun _ p =>
  match p with
  | none => Except.ok JVal.null
  | some prm => (storage.getTask (strField prm "taskId")).map (fun r => r.getD JVal.null)

def taskListHandler (storage : StorageAPI) : Handler := fun _ _ =>
  (storage.getTasks ()).map JVal.arr

def taskDeleteHandler (storage : StorageAPI) : Handler := fun _ p =>
  match p with
  | none => Except.ok JVal.null
  | some prm => (storage.deleteTask (strField prm "taskId")).map (fun _ => JVal.null)

def taskClearHistoryHandler (storage : StorageAPI) : Handler := fun _ _ =>
  (storage.clearHistory ()).map (fun _ => JVal.null)

def taskGetTodosHandler (storage : StorageAPI) : Handler := fun _ p =>
  match p with
  | none => Except.ok (JVal.arr [])
  | some prm => (storage.getTodosForTask (strField prm "taskId")).map JVal.arr

def storageSaveTaskHandler (storage : StorageAPI) : Handler := fun _ p =>
  match p with
  | none => Except.ok JVal.null
  | some prm => (storage.saveTask (jsonField prm "task")).map (fun _ => JVal.null)

def storageUpdateTaskStatusHandler (storage : StorageAPI) : Handler := fun _ p =>
  match p with
  | none => Except.ok JVal.null
  | some prm =>
    (storage.updateTaskStatus (strField prm "taskId") (jsonField prm "status")
        (optField prm "completedAt")).map (fun _ => JVal.null)

def storageUpdateTaskSummaryHandler (storage : StorageAPI) : Handler := fun _ p =>
  match p with
  | none => Except.ok JVal.null
  | some prm =>
    (storage.updateTaskSummary (strField prm "taskId") (strField prm "summary")).map
      (fun _ => JVal.null)

def storageAddTaskMessageHandler (storage : StorageAPI) : Handler := fun _ p =>
  match p with
  | none => Except.ok JVal.null
  | some prm =>
    (storage.addTaskMessage (strField prm "taskId") (jsonField prm "message")).map
      (fun _ => JVal.null)

/-- The `registerHandlers` routine of the daemon child-process entry point
(lines 45-101): registers ONLY the storage-persistence subset of the method map. -/
def registerHandlers (st : DaemonServer) (storage : StorageAPI) : DaemonServer :=
  let hs := st.handlers
  let hs := registerMethod hs "task.get" (taskGetHandler storage)
  let hs := registerMethod hs "task.list" (taskListHandler storage)
  let hs := registerMethod hs "task.delete" (taskDeleteHandler storage)
  let hs := registerMethod hs "task.clearHistory" (taskClearHistoryHandler storage)
  let hs := registerMethod hs "task.getTodos" (taskGetTodosHandler storage)
  let hs := registerMethod hs "storage.saveTask" (storageSaveTaskHandler storage)
  let hs := registerMethod hs "storage.updateTaskStatus" (storageUpdateTaskStatusHandler storage)
  let hs := registerMethod hs "storage.updateTaskSummary" (storageUpdateTaskSummaryHandler storage)
  let hs := registerMethod hs "storage.addTaskMessage" (storageAddTaskMessageHandler storage)
  { st with handlers := hs }

/-- The server as built by the child daemon's `boot` (daemon-entry lines
133-154): a fresh `DaemonServer` (which auto-registers `daemon.ping`) with
the storage-backed subset registered. -/
def childServer (storage : StorageAPI) (startTime : Int) : DaemonServer :=
  registerHandlers (mkServer startTime) storage

/-- Task-lifecycle methods of the full method map (daemon.ts lines 169-188)
that the child-process entry never registers. -/
def lifecycleMethods : List String :=
  ["task.start", "task.cancel", "task.interrupt", "task.sendResponse",
   "task.getActiveIds", "task.getActiveCount", "task.hasActive",
   "task.isQueued", "task.cancelQueued", "session.resume", "permission.respond"]

/-- A trivial storage instance (used to evaluate the embedding at concrete
inputs). -/
def trivialStorage : StorageAPI :=
  { getTask := fun _ => Except.ok none,
    getTasks := fun _ => Except.ok [],
    saveTask := fun _ => Except.ok (),
    updateTaskStatus := fun _ _ _ => Except.ok (),
    updateTaskSummary := fun _ _ => Except.ok (),
    addTaskMessage := fun _ _ => Except.ok (),
    deleteTask := fun _ => Except.ok (),
    clearHistory := fun _ => Except.ok (),
    getTodosForTask := fun _ => Except.ok [] }

/-! ## Transports (transport.ts, ipc-transport.ts) -/

/-- State shared by a linked in-process transport pair (transport.ts lines
19-66): the two handler lists and the shared `closed` flag. Handlers are
identified by opaque registration tokens. -/
structure InProcPair where
  serverHandlers : List Nat
  clientHandlers : List Nat
  closed : Bool

/-- The pair's `serverTransport.send` (transport.ts lines 28-35): the deliveries made,
as (handler token, message) pairs; none when the pair is closed. -/
def InProcPair.serverSend (p : InProcPair) (m : Msg) : List (Nat × Msg) :=
  if p.closed then [] else p.clientHandlers.map (fun h => (h, m))

/-- The pair's `clientTransport.send` (transport.ts lines 47-54). -/
def InProcPair.clientSend (p : InProcPair) (m : Msg) : List (Nat × Msg) :=
  if p.closed then [] else p.serverHandlers.map (fun h => (h, m))

/-- The pair's `serverTransport.onMessage` (transport.ts lines 36-38). -/
def InProcPair.serverOnMessage (p : InProcPair) (h : Nat) : InProcPair :=
  { p with serverHandlers := p.serverHandlers ++ [h] }

/-- The pair's `clientTransport.onMessage` (transport.ts lines 55-57). -/
def InProcPair.clientOnMessage (p : InProcPair) (h : Nat) : InProcPair :=
  { p with clientHandlers := p.clientHandlers ++ [h] }

/-- Closing either side (transport.ts lines 39-43 and 58-62): sets the
shared `closed` flag and truncates both handler lists. -/
def InProcPair.closePair (_p : InProcPair) : InProcPair :=
  { serverHandlers := [], clientHandlers := [], closed := true }

/-- Raw traffic on the child-process IPC channel: daemon envelopes
`{__daemon, payload}` and unrelated messages. -/
inductive IpcRaw where
  | env (daemonTag : Bool) (payload : Msg) : IpcRaw
  | unrelated (data : Nat) : IpcRaw

/-- The `isDaemonEnvelope` guard (ipc-transport.ts lines 148-156). -/
def isDaemonEnvelope : IpcRaw → Bool
  | IpcRaw.env true _ => true
  | _ => false

/-- State of the parent-side transport `createChildProcessTransport`
(ipc-transport.ts lines 162-190): its handler list, whether its
`child.on('message')` listener is attached, and the child handle's
`connected` flag (owned by the OS channel, not by the transport). -/
structure IpcParent where
  handlers : List Nat
  listenerAttached : Bool
  childConnected : Bool

/-- Parent-side `send` (ipc-transport.ts lines 176-181): wraps the message
in a tagged envelope and transmits it iff `child.connected`; returns what is
placed on the channel. -/
def IpcParent.send (t : IpcParent) (m : Msg) : Option IpcRaw :=
  if t.childConnected then some (IpcRaw.env true m) else none

/-- Parent-side inbound delivery (ipc-transport.ts lines 165-173): only
envelopes carrying the tag reach the handlers, and only while the listener
is attached. -/
def IpcParent.deliver (t : IpcParent) (raw : IpcRaw) : List (Nat × Msg) :=
  if t.listenerAttached then
    match raw with
    | IpcRaw.env true payload => t.handlers.map (fun h => (h, payload))
    | _ => []
  else []

/-- Parent-side `onMessage` (ipc-transport.ts lines 182-184). -/
def IpcParent.onMessage (t : IpcParent) (h : Nat) : IpcParent :=
  { t with handlers := t.handlers ++ [h] }

/-- Parent-side `close` (ipc-transport.ts lines 185-189): removes the
channel listener and truncates the handler list; `child.connected` is not
touched. -/
def IpcParent.closeT (t : IpcParent) : IpcParent :=
  { t with listenerAttached := false, handlers := [] }

/-- State of the child-side transport `createParentProcessTransport`
(ipc-transport.ts lines 196-228); `sendAvailable` models the presence of
`process.send`. -/
structure IpcChild where
  handlers : List Nat
  listenerAttached : Bool
  sendAvailable : Bool

/-- Child-side `send` (ipc-transport.ts lines 214-219). -/
def IpcChild.send (t : IpcChild) (m : Msg) : Option IpcRaw :=
  if t.sendAvailable then some (IpcRaw.env true m) else none

/-- Child-side inbound delivery (ipc-transport.ts lines 203-209). -/
def IpcChild.deliver (t : IpcChild) (raw : IpcRaw) : List (Nat × Msg) :=
  if t.listenerAttached then
    match raw with
    | IpcRaw.env true payload => t.handlers.map (fun h => (h, payload))
    | _ => []
  else []

/-- Child-side `onMessage` (ipc-transport.ts lines 220-222). -/
def IpcChild.onMessage (t : IpcChild) (h : Nat) : IpcChild :=
  { t with handlers := t.handlers ++ [h] }

/-- Child-side `close` (ipc-transport.ts lines 223-227). -/
def IpcChild.closeT (t : IpcChild) : IpcChild :=
  { t with listenerAttached := false, handlers := [] }

/-! ## DaemonClient (client.ts) -/

/-- A pending-request entry (client.ts lines 24-28, 76-80). The entry's
`method` is the method captured by the timeout closure; the resolver and
rejecter are represented by the settlements emitted by the step function.
An entry being present in `timers` models its `setTimeout` timer being
armed (set at call, cleared via `clearTimeout` on response match and on
close, consumed when it fires). -/
structure PendEntry where
  id : Int
  method : String
deriving DecidableEq

/-- How a call's promise settled. -/
inductive Outcome where
  | resolved : Outcome
  | rejected (code : Option Int) (message : String) : Outcome
deriving DecidableEq

/-- One promise settlement: which call's promise, and how. -/
structure Settlement where
  id : Int
  outcome : Outcome
deriving DecidableEq

/-- The state of a `DaemonClient` (client.ts lines 38-52). -/
structure DaemonClient where
  nextId : Int
  pending : List PendEntry
  timers : List PendEntry
  notifHandlers : List String
  timeout : Nat
  transportClosed : Bool

/-- Client construction (client.ts lines 45-52) with
`options.timeout ?? DEFAULT_TIMEOUT_MS`. -/
def mkClient (timeoutOpt : Option Nat) : DaemonClient :=
  { nextId := 1, pending := [], timers := [], notifHandlers := [],
    timeout := timeoutOpt.getD 30000, transportClosed := false }

/-- A client with the default 30000 ms timeout. -/
def initClient : DaemonClient := mkClient none

/-- The externally triggered events a client reacts to: an outgoing `call`,
an inbound transport message, a timeout timer firing, `onNotification`
registration, and `close`. -/
inductive ClientEvent where
  | call (method : String) (params : Option JVal) : ClientEvent
  | recv (msg : Msg) : ClientEvent
  | timerFire (id : Int) : ClientEvent
  | subscribe (name : String) : ClientEvent
  | close : ClientEvent

/-- The observable output of one client step: the settlements performed on
call promises and the messages handed to `transport.send`. -/
structure StepOut where
  settled : List Settlement
  sent : List Msg

def StepOut.empty : StepOut := { settled := [], sent := [] }

def StepOut.append (a b : StepOut) : StepOut :=
  { settled := a.settled ++ b.settled, sent := a.sent ++ b.sent }

/-- The timeout rejection message (client.ts line 73):
`RPC timeout: ${method} (${this.timeout}ms)`. -/
def timeoutMessage (method : String) (timeout : Nat) : String :=
  "RPC timeout: " ++ method ++ " (" ++ toString timeout ++ "ms)"

/-- One atomic client step:
- `call` (client.ts lines 57-84): allocates `id := nextId++`, arms the
  timeout timer, stores the pending entry, sends the request.
- `recv` (client.ts `handleMessage`, lines 115-148): a message with `id` and
  no `method` is a response — an unknown id is silently dropped; a match is
  removed, its timer cleared, and the promise rejected (error present,
  code `error.code ?? INTERNAL_ERROR`) or resolved. A message with `method`
  and no `id` is a notification (fanned out to subscribers, no state
  change). Anything else is ignored.
- `timerFire` (client.ts lines 71-74): only an armed timer fires; the
  callback deletes the pending entry and rejects with the timeout message.
- `subscribe` (client.ts lines 89-93).
- `close` (client.ts lines 105-113): clears every pending timer, rejects
  every pending call with "Client closed", empties the table, clears the
  notification-handler lists and closes the transport. -/
def DaemonClient.step (s : DaemonClient) : ClientEvent → DaemonClient × StepOut
  | ClientEvent.call m p =>
    ({ s with
        nextId := s.nextId + 1,
        pending := s.pending ++ [{ id := s.nextId, method := m }],
        timers := s.timers ++ [{ id := s.nextId, method := m }] },
      { settled := [], sent := [mkRequest (RpcId.num s.nextId) m p] })
  | ClientEvent.recv msg =>
    match msg.id, msg.method with
    | some rid, none =>
      match rid with
      | RpcId.str _ => (s, StepOut.empty)
      | RpcId.num n =>
        match s.pending.find? (fun e => e.id == n) with
        | none => (s, StepOut.empty)
        | some e =>
          ({ s with
              pending := s.pending.filter (fun x => x.id != n),
              timers := s.timers.filter (fun x => x.id != n) },
            { settled :=
                [{ id := e.id,
                   outcome :=
                     match msg.error with
                     | some err => Outcome.rejected (some err.code) err.message
                     | none => Outcome.resolved }],
              sent := [] })
    | some _, some _ => (s, StepOut.empty)
    | none, _ => (s, StepOut.empty)
  | ClientEvent.timerFire n =>
    match s.timers.find? (fun e => e.id == n) with
    | none => (s, StepOut.empty)
    | some e =>
      ({ s with
          pending := s.pending.filter (fun x => x.id != n),
          timers := s.timers.filter (fun x => x.id != n) },
        { settled := [{ id := e.id, outcome := Outcome.rejected none (timeoutMessage e.method s.timeout) }],
          sent := [] })
  | ClientEvent.subscribe name =>
    ({ s with notifHandlers := s.notifHandlers ++ [name] }, StepOut.empty)
  | ClientEvent.close =>
    ({ s with pending := [], timers := [], notifHandlers := [], transportClosed := true },
      { settled := s.pending.map (fun e => { id := e.id, outcome := Outcome.rejected none "Client closed" }),
        sent := [] })

/-- Run a client through a list of events, accumulating the outputs. -/
def DaemonClient.run (s : DaemonClient) : List ClientEvent → DaemonClient × StepOut
  | [] => (s, StepOut.empty)
  | e :: rest =>
    let r1 := DaemonClient.step s e
    let r2 := DaemonClient.run r1.1 rest
    (r2.1, r1.2.append r2.2)

/-- Number of settlements performed on the promise of call `id`. -/
def settledCountFor (l : List Settlement) (id : Int) : Nat :=
  l.countP (fun st => st.id == id)

/-- Number of pending-table entries for `id`. -/
def pendCountFor (s : DaemonClient) (id : Int) : Nat :=
  s.pending.countP (fun e => e.id == id)

/-- Number of `call` events in a trace. -/
def callCount (evs : List ClientEvent) : Nat :=
  evs.countP (fun e => match e with | ClientEvent.call _ _ => true | _ => false)

/-! ## Calendar model (JS `Date` at minute resolution) -/

/-- A wall-clock instant at minute resolution: the civil fields the
scheduler reads via `getMinutes` / `getHours` / `getDate` / `getMonth` /
`getDay`, in a single (UTC) timezone. `month` is 1-based (the code applies
`getMonth() + 1`). -/
structure DateTime where
  year : Nat
  month : Nat
  day : Nat
  hour : Nat
  minute : Nat
deriving DecidableEq

/-- Gregorian leap year. -/
def isLeap (y : Nat) : Bool :=
  (y % 4 == 0 && y % 100 != 0) || y % 400 == 0

/-- Days in a month (default 31 keeps the function total on junk months,
which a real `Date` never produces). -/
def daysInMonth (y m : Nat) : Nat :=
  if m == 2 then (if isLeap y then 29 else 28)
  else if m == 4 || m == 6 || m == 9 || m == 11 then 30
  else 31

/-- Cumulative days before month `m` in year `y`. -/
def daysBeforeMonth (y m : Nat) : Nat :=
  (List.range' 1 (m - 1)).foldl (fun acc k => acc + daysInMonth y k) 0

/-- Days from the proleptic Gregorian epoch 0001-01-01 to the given date. -/
def daysFromCivil (d : DateTime) : Nat :=
  365 * (d.year - 1) + (d.year - 1) / 4 - (d.year - 1) / 100 + (d.year - 1) / 400
    + daysBeforeMonth d.year d.month + (d.day - 1)

/-- JS `Date.prototype.getDay`: 0 = Sunday .. 6 = Saturday.
0001-01-01 (proleptic Gregorian) was a Monday. -/
def dayOfWeek (d : DateTime) : Nat :=
  (daysFromCivil d + 1) % 7

/-- Models `check.setMinutes(check.getMinutes() + 1)`: JS `Date` rolls the carry
through hours, days, months and years. -/
def addOneMinute (d : DateTime) : DateTime :=
  if d.minute + 1 ≤ 59 then { d with minute := d.minute + 1 }
  else if d.hour + 1 ≤ 23 then { d with minute := 0, hour := d.hour + 1 }
  else if d.day + 1 ≤ daysInMonth d.year d.month then
    { d with minute := 0, hour := 0, day := d.day + 1 }
  else if d.month + 1 ≤ 12 then
    { d with minute := 0, hour := 0, day := 1, month := d.month + 1 }
  else
    { year := d.year + 1, month := 1, day := 1, hour := 0, minute := 0 }

/-- Left-pad a numeral to two digits. -/
def pad2 (n : Nat) : String :=
  if n < 10 then "0" ++ toString n else toString n

/-- Left-pad a numeral to four digits (years of interest are 1000-9999). -/
def pad4 (n : Nat) : String :=
  if n < 10 then "000" ++ toString n
  else if n < 100 then "00" ++ toString n
  else if n < 1000 then "0" ++ toString n
  else toString n

/-- Models `Date.prototype.toISOString` at minute resolution (the scheduler zeroes
seconds and milliseconds before rendering `nextRunAt`). -/
def toISO (d : DateTime) : String :=
  pad4 d.year ++ "-" ++ pad2 d.month ++ "-" ++ pad2 d.day ++ "T"
    ++ pad2 d.hour ++ ":" ++ pad2 d.minute ++ ":00.000Z"

/-! ## Cron parsing and matching (scheduler.ts lines 26-73) -/

/-- The whitespace class of `String.prototype.trim` / `\s`, restricted to
the characters that occur in practice. -/
def isWsChar (c : Char) : Bool :=
  c == ' ' || c == '\t' || c == '\n' || c == '\r'

/-- Models `cron.trim()`. -/
def trimWs (s : String) : String :=
  String.mk (((s.data.dropWhile isWsChar).reverse.dropWhile isWsChar).reverse)

/-- Split a character list at every occurrence of `sep` (JS
`String.prototype.split(sep)`: `"".split(sep) = [""]`, and empty pieces are
kept). -/
def splitCharsOn (sep : Char) : List Char → List String
  | [] => [""]
  | c :: rest =>
    let tail := splitCharsOn sep rest
    if c == sep then "" :: tail
    else
      match tail with
      | [] => [String.mk [c]]
      | t :: ts => String.mk (c :: t.data) :: ts

/-- Models `field.split(',')` and `part.split('-')`. -/
def splitOn (sep : Char) (s : String) : List String :=
  splitCharsOn sep s.data

/-- Models `trimmed.split(/\s+/)` on an already-trimmed string: the maximal runs of
non-whitespace characters; the empty string yields `[""]` as in JS. -/
def splitWs (s : String) : List String :=
  if s.data.isEmpty then [""]
  else
    let groups := s.data.splitOnP isWsChar
    (groups.filter (fun g => !g.isEmpty)).map String.mk

/-- JS `Number(str)` on the separator-free pieces the cron parser produces:
the empty string is 0, a digit string is its value, anything else is `NaN`
(modelled as `none`). -/
def jsNum (s : String) : Option Int :=
  if s.data.isEmpty then some 0
  else if s.data.all (fun c => c.isDigit) then
    some (Int.ofNat (s.data.foldl (fun acc c => acc * 10 + (c.toNat - 48)) 0))
  else none

/-- The loop `for (let i = a; ...; i++) values.push(i)`, fuelled by the
number of remaining iterations. -/
def numRangeAux (a : Int) : Nat → List Int
  | 0 => []
  | n + 1 => a :: numRangeAux (a + 1) n

/-- The integers from `lo` to `hi` inclusive (`for (let i = lo; i <= hi; i++)`);
empty when either bound is `NaN` (every comparison with `NaN` is false). -/
def numRange (lo hi : Option Int) : List Int :=
  match lo, hi with
  | some a, some b => numRangeAux a (b - a + 1).toNat
  | _, _ => []

/-- The `parseCronField` function (scheduler.ts lines 26-50): `*` yields the full
`min..max` range; otherwise the comma-separated parts each contribute a
`a-b` range or a single number, and the final filter keeps the in-range
values (dropping `NaN`s). -/
def parseCronField (field : String) (min max : Int) : List Int :=
  if field == "*" then numRange (some min) (some max)
  else
    let parts := splitOn ',' field
    let values : List (Option Int) :=
      parts.foldl
        (fun acc part =>
          if part.data.contains '-' then
            let pieces := splitOn '-' part
            acc ++ (match pieces with
              | p0 :: p1 :: _ => (numRange (jsNum p0) (jsNum p1)).map some
              | [p0] => (numRange (jsNum p0) none).map some
              | [] => [])
          else acc ++ [jsNum part])
        []
    values.filterMap (fun v =>
      match v with
      | some x => if min ≤ x && x ≤ max then some x else none
      | none => none)

/-- The body of `matchesCron` after the field split (scheduler.ts lines
58-72): destructures exactly five fields, otherwise the expression does not
match (length check, lines 54-56). -/
def matchesCronParts (parts : List String) (d : DateTime) : Bool :=
  match parts with
  | [minuteField, hourField, domField, monthField, dowField] =>
    (parseCronField minuteField 0 59).contains (d.minute : Int)
      && (parseCronField hourField 0 23).contains (d.hour : Int)
      && (parseCronField domField 1 31).contains (d.day : Int)
      && (parseCronField monthField 1 12).contains (d.month : Int)
      && (parseCronField dowField 0 6).contains ((dayOfWeek d : Nat) : Int)
  | _ => false

/-- The `matchesCron` function (scheduler.ts lines 52-73). -/
def matchesCron (cron : String) (d : DateTime) : Bool :=
  matchesCronParts (splitWs (trimWs cron)) d

/-! ## Scheduler (scheduler.ts lines 79-199) -/

/-- The `ScheduledTask` record (daemon.ts lines 136-150). -/
structure ScheduledTask where
  id : String
  cron : String
  prompt : String
  enabled : Bool
  createdAt : String
  lastRunAt : Option String
  nextRunAt : Option String
deriving DecidableEq

/-- The minute-by-minute scan of `getNextRunTime` (scheduler.ts lines
88-93), fuelled by the remaining iteration count. -/
def scanNext (cron : String) : Nat → DateTime → Option DateTime
  | 0, _ => none
  | fuel + 1, t =>
    if matchesCron cron t then some t
    else scanNext cron fuel (addOneMinute t)

/-- The `getNextRunTime` function (scheduler.ts lines 79-95): zero the seconds, advance
to the next whole minute, and scan up to 7 * 24 * 60 = 10080 minutes for the
first match; `none` when no minute in the window matches. `now` is the
current instant truncated to its minute (the code zeroes seconds and
milliseconds). -/
def getNextRunTime (cron : String) (now : DateTime) : Option DateTime :=
  scanNext cron (7 * 24 * 60) (addOneMinute now)

/-- The `addScheduledTask` function (scheduler.ts lines 100-120). The generated id
(`Date.now()` plus random suffix) and the current time are impure inputs,
passed explicitly. -/
def addScheduledTask (cron prompt : String) (now : DateTime) (genId : String) : ScheduledTask :=
  { id := genId, cron := cron, prompt := prompt, enabled := true,
    createdAt := toISO now, lastRunAt := none,
    nextRunAt := (getNextRunTime cron now).map toISO }

/-- The observable actions of one scheduler tick, in execution order. -/
inductive TickAction where
  | setLastRunAt (taskId : String) (iso : String) : TickAction
  | setNextRunAt (taskId : String) (iso : Option String) : TickAction
  | fireCallback (task : ScheduledTask) : TickAction
deriving DecidableEq

/-- The task as mutated by a firing tick (scheduler.ts lines 187-188). -/
def firedTask (t : ScheduledTask) (now : DateTime) : ScheduledTask :=
  { t with lastRunAt := some (toISO now), nextRunAt := (getNextRunTime t.cron now).map toISO }

/-- The loop body of `tick()` for one task (scheduler.ts lines 180-198):
skip disabled tasks; on a cron match, write `lastRunAt`, recompute
`nextRunAt`, and only then invoke the fire callback (if one is set) with
the already-updated task. A callback throw is caught (it changes nothing
observable here). -/
def tickOne (now : DateTime) (cbSet : Bool) (t : ScheduledTask) : List TickAction × ScheduledTask :=
  if !t.enabled then ([], t)
  else if matchesCron t.cron now then
    let t1 := firedTask t now
    ([TickAction.setLastRunAt t.id (toISO now), TickAction.setNextRunAt t.id t1.nextRunAt]
       ++ (if cbSet then [TickAction.fireCallback t1] else []),
      t1)
  else ([], t)

/-- The `tick()` function (scheduler.ts lines 177-199): the loop over
`schedules.values()` in iteration order. -/
def tick (now : DateTime) (cbSet : Bool) : List ScheduledTask → List TickAction × List ScheduledTask
  | [] => ([], [])
  | t :: rest =>
    let r1 := tickOne now cbSet t
    let r2 := tick now cbSet rest
    (r1.1 ++ r2.1, r1.2 :: r2.2)

/-! ## Client invariants (for the pending-table and settlement claims) -/

/-- Equals 1 when `a ≤ id < b`, else 0: whether a call with this id was allocated
while the monotone counter moved from `a` to `b` (the n-th `call` allocates
id n, starting from 1). -/
def allocBetween (a b id : Int) : Nat := if a ≤ id ∧ id < b then 1 else 0

lemma allocBetween_self (a id : Int) : allocBetween a a id = 0 := by
  unfold allocBetween; split <;> omega

lemma allocBetween_trans (a b c id : Int) (hab : a ≤ b) (hbc : b ≤ c) :
    allocBetween a b id + allocBetween b c id = allocBetween a c id := by
  unfold allocBetween; split_ifs <;> omega

/-- The client's structural invariant: the armed timers are exactly the
pending entries (`setTimeout` at call, `clearTimeout` paired with every
`pending.delete`), pending ids are duplicate-free, and every pending id was
allocated by the monotone counter. -/
structure ClientInv (s : DaemonClient) : Prop where
  timers_eq : s.timers = s.pending
  nodup : (s.pending.map PendEntry.id).Nodup
  bounded : ∀ e ∈ s.pending, 1 ≤ e.id ∧ e.id < s.nextId
  pos : 1 ≤ s.nextId

lemma initClient_inv : ClientInv initClient := by
  constructor <;> simp [initClient, mkClient]

lemma countP_id_le_one :
    ∀ (l : List PendEntry), (l.map PendEntry.id).Nodup →
      ∀ n : Int, l.countP (fun e => e.id == n) ≤ 1
  | [], _, _ => by simp
  | e :: rest, h, n => by
    simp only [List.map_cons, List.nodup_cons] at h
    rw [List.countP_cons]
    by_cases he : e.id = n
    · have hzero : rest.countP (fun x => x.id == n) = 0 := by
        apply List.countP_eq_zero.mpr
        intro x hx hpx
        apply h.1
        have hxn : x.id = n := by simpa using hpx
        rw [he, ← hxn]
        exact List.mem_map_of_mem PendEntry.id hx
      simp [he, hzero]
    · have hrec := countP_id_le_one rest h.2 n
      have : (e.id == n) = false := by simpa using he
      simp [this]
      omega

lemma countP_filter_self (l : List PendEntry) (n : Int) :
    (l.filter (fun x => x.id != n)).countP (fun e => e.id == n) = 0 := by
  apply List.countP_eq_zero.mpr
  intro x hx
  have := List.of_mem_filter hx
  simp only [bne_iff_ne, ne_eq] at this
  simpa using this

lemma countP_filter_other (l : List PendEntry) (n m : Int) (hmn : m ≠ n) :
    (l.filter (fun x => x.id != n)).countP (fun e => e.id == m) =
      l.countP (fun e => e.id == m) := by
  rw [List.countP_filter]
  apply List.countP_congr
  intro x _
  by_cases hx : x.id = m
  · have : x.id ≠ n := by rw [hx]; exact hmn
    simp [hx, this, hmn]
  · simp [hx]

lemma countP_one_of_mem (l : List PendEntry) (hn : (l.map PendEntry.id).Nodup)
    (e : PendEntry) (he : e ∈ l) (n : Int) (hid : e.id = n) :
    l.countP (fun x => x.id == n) = 1 := by
  refine Nat.le_antisymm (countP_id_le_one l hn n) ?_
  exact List.countP_pos_iff.mpr ⟨e, he, by simp [hid]⟩

lemma run_cons (s : DaemonClient) (e : ClientEvent) (rest : List ClientEvent) :
    DaemonClient.run s (e :: rest) =
      ((DaemonClient.run (DaemonClient.step s e).1 rest).1,
        (DaemonClient.step s e).2.append (DaemonClient.run (DaemonClient.step s e).1 rest).2) := rfl

lemma removal_counts (s : DaemonClient) (hInv : ClientInv s) (e : PendEntry) (n : Int)
    (he : e ∈ s.pending) (hid : e.id = n) (out : Outcome) (id : Int) :
    ([{ id := e.id, outcome := out }] : List Settlement).countP (fun st => st.id == id)
      + (s.pending.filter (fun x => x.id != n)).countP (fun x => x.id == id)
    = s.pending.countP (fun x => x.id == id) := by
  by_cases h : id = n
  · subst h
    rw [countP_filter_self]
    rw [countP_one_of_mem s.pending hInv.nodup e he id hid]
    simp [hid]
  · rw [countP_filter_other _ _ _ h]
    have : (e.id == id) = false := by
      simp only [beq_eq_false_iff_ne, ne_eq, hid]
      exact fun hc => h hc.symm
    simp [this]

lemma removal_inv (s : DaemonClient) (hInv : ClientInv s) (n : Int) :
    ClientInv { s with
      pending := s.pending.filter (fun x => x.id != n),
      timers := s.timers.filter (fun x => x.id != n) } := by
  constructor
  · simp [hInv.timers_eq]
  · exact List.Nodup.sublist (List.Sublist.map _ (List.filter_sublist _)) hInv.nodup
  · intro x hx
    exact hInv.bounded x (List.mem_of_mem_filter hx)
  · exact hInv.pos


/-- The per-event `call` count: 1 for a `call`, 0 otherwise. -/
def callInc : ClientEvent → Nat
  | ClientEvent.call _ _ => 1
  | _ => 0

lemma step_spec (s : DaemonClient) (e : ClientEvent) (hInv : ClientInv s) :
    ClientInv (DaemonClient.step s e).1
    ∧ (DaemonClient.step s e).1.nextId = s.nextId + (callInc e : Int)
    ∧ ∀ id, settledCountFor (DaemonClient.step s e).2.settled id
          + pendCountFor (DaemonClient.step s e).1 id
        = pendCountFor s id + allocBetween s.nextId (DaemonClient.step s e).1.nextId id := by
  cases e with
  | call m p =>
    have hstep : DaemonClient.step s (ClientEvent.call m p) =
        ({ s with nextId := s.nextId + 1,
                  pending := s.pending ++ [{ id := s.nextId, method := m }],
                  timers := s.timers ++ [{ id := s.nextId, method := m }] },
          { settled := [], sent := [mkRequest (RpcId.num s.nextId) m p] }) := rfl
    rw [hstep]
    dsimp only
    refine ⟨⟨?_, ?_, ?_, ?_⟩, by simp [callInc], ?_⟩
    · simp [hInv.timers_eq]
    · simp only [List.map_append]
      rw [List.nodup_append]
      refine ⟨hInv.nodup, by simp, ?_⟩
      intro a ha
      simp only [List.mem_map] at ha
      obtain ⟨x, hx, hax⟩ := ha
      have hb := (hInv.bounded x hx).2
      simp only [List.map_cons, List.map_nil, List.mem_singleton]
      omega
    · intro x hx
      simp only [List.mem_append, List.mem_singleton] at hx
      rcases hx with hx | hx
      · obtain ⟨h1, h2⟩ := hInv.bounded x hx
        refine ⟨h1, ?_⟩
        show x.id < s.nextId + 1
        omega
      · subst hx
        refine ⟨?_, ?_⟩
        · show (1 : Int) ≤ s.nextId
          exact hInv.pos
        · show (s.nextId : Int) < s.nextId + 1
          omega
    · show (1 : Int) ≤ s.nextId + 1
      have := hInv.pos
      omega
    · intro id
      simp only [settledCountFor, pendCountFor, allocBetween, List.countP_nil,
        List.countP_append, List.countP_cons]
      by_cases hid : id = s.nextId
      · have h1 : (PendEntry.id { id := s.nextId, method := m } == id) = true := by
          simp [hid]
        have h2 : s.nextId ≤ id ∧ id < s.nextId + 1 := by omega
        simp [h1, h2]
      · have h1 : (PendEntry.id { id := s.nextId, method := m } == id) = false := by
          simp only [beq_eq_false_iff_ne, ne_eq]
          exact fun hc => hid hc.symm
        have h2 : ¬(s.nextId ≤ id ∧ id < s.nextId + 1) := by omega
        simp [h1, h2]
  | subscribe name =>
    refine ⟨⟨hInv.timers_eq, hInv.nodup, hInv.bounded, hInv.pos⟩, by simp [DaemonClient.step, callInc], ?_⟩
    intro id
    simp [DaemonClient.step, settledCountFor, pendCountFor, StepOut.empty, allocBetween_self]
  | close =>
    have hstep : DaemonClient.step s ClientEvent.close =
        ({ s with pending := [], timers := [], notifHandlers := [], transportClosed := true },
          { settled := s.pending.map (fun e => { id := e.id, outcome := Outcome.rejected none "Client closed" }),
            sent := [] }) := rfl
    rw [hstep]
    refine ⟨⟨rfl, by simp, by simp, hInv.pos⟩, by simp [callInc], ?_⟩
    intro id
    dsimp only
    simp only [settledCountFor, pendCountFor, allocBetween_self, List.countP_map, List.countP_nil]
    rw [Nat.add_zero, Nat.add_zero]
    rfl
  | timerFire n =>
    rcases hf : s.timers.find? (fun x => x.id == n) with _ | e
    · have hstep : DaemonClient.step s (ClientEvent.timerFire n) = (s, StepOut.empty) := by
        simp [DaemonClient.step, hf]
      rw [hstep]
      exact ⟨hInv, by simp [callInc], fun id => by
        simp [settledCountFor, pendCountFor, StepOut.empty, allocBetween_self]⟩
    · have hid : e.id = n := by simpa using List.find?_some hf
      have hmem : e ∈ s.pending := hInv.timers_eq ▸ List.mem_of_find?_eq_some hf
      have hstep : DaemonClient.step s (ClientEvent.timerFire n) =
          ({ s with pending := s.pending.filter (fun x => x.id != n),
                    timers := s.timers.filter (fun x => x.id != n) },
            { settled := [{ id := e.id, outcome := Outcome.rejected none (timeoutMessage e.method s.timeout) }],
              sent := [] }) := by
        simp [DaemonClient.step, hf]
      rw [hstep]
      refine ⟨removal_inv s hInv n, by simp [callInc], ?_⟩
      intro id
      simp only [settledCountFor, pendCountFor, allocBetween_self, Nat.add_zero]
      exact removal_counts s hInv e n hmem hid _ id
  | recv msg =>
    rcases hmid : msg.id with _ | rid
    · have hstep : DaemonClient.step s (ClientEvent.recv msg) = (s, StepOut.empty) := by
        simp [DaemonClient.step, hmid]
      rw [hstep]
      exact ⟨hInv, by simp [callInc], fun id => by
        simp [settledCountFor, pendCountFor, StepOut.empty, allocBetween_self]⟩
    · rcases hmm : msg.method with _ | mth
      · rcases rid with rs | rn
        · have hstep : DaemonClient.step s (ClientEvent.recv msg) = (s, StepOut.empty) := by
            simp [DaemonClient.step, hmid, hmm]
          rw [hstep]
          exact ⟨hInv, by simp [callInc], fun id => by
            simp [settledCountFor, pendCountFor, StepOut.empty, allocBetween_self]⟩
        · rcases hf : s.pending.find? (fun x => x.id == rn) with _ | e
          · have hstep : DaemonClient.step s (ClientEvent.recv msg) = (s, StepOut.empty) := by
              simp [DaemonClient.step, hmid, hmm, hf]
            rw [hstep]
            exact ⟨hInv, by simp [callInc], fun id => by
              simp [settledCountFor, pendCountFor, StepOut.empty, allocBetween_self]⟩
          · have hid : e.id = rn := by simpa using List.find?_some hf
            have hmem : e ∈ s.pending := List.mem_of_find?_eq_some hf
            have hstep : DaemonClient.step s (ClientEvent.recv msg) =
                ({ s with pending := s.pending.filter (fun x => x.id != rn),
                          timers := s.timers.filter (fun x => x.id != rn) },
                  { settled := [{ id := e.id, outcome :=
                      match msg.error with
                      | some err => Outcome.rejected (some err.code) err.message
                      | none => Outcome.resolved }],
                    sent := [] }) := by
              simp [DaemonClient.step, hmid, hmm, hf]
            rw [hstep]
            refine ⟨removal_inv s hInv rn, by simp [callInc], ?_⟩
            intro id
            simp only [settledCountFor, pendCountFor, allocBetween_self, Nat.add_zero]
            exact removal_counts s hInv e rn hmem hid _ id
      · have hstep : DaemonClient.step s (ClientEvent.recv msg) = (s, StepOut.empty) := by
          simp [DaemonClient.step, hmid, hmm]
        rw [hstep]
        exact ⟨hInv, by simp [callInc], fun id => by
          simp [settledCountFor, pendCountFor, StepOut.empty, allocBetween_self]⟩

lemma callCount_cons (e : ClientEvent) (rest : List ClientEvent) :
    callCount (e :: rest) = callInc e + callCount rest := by
  cases e <;> simp [callCount, callInc, List.countP_cons, Nat.add_comm]

lemma run_spec :
    ∀ (evs : List ClientEvent) (s : DaemonClient), ClientInv s →
      ClientInv (DaemonClient.run s evs).1
      ∧ (DaemonClient.run s evs).1.nextId = s.nextId + (callCount evs : Int)
      ∧ ∀ id, settledCountFor (DaemonClient.run s evs).2.settled id
            + pendCountFor (DaemonClient.run s evs).1 id
          = pendCountFor s id + allocBetween s.nextId (DaemonClient.run s evs).1.nextId id
  | [], s, h => by
    refine ⟨h, by simp [DaemonClient.run, callCount], ?_⟩
    intro id
    simp [DaemonClient.run, settledCountFor, StepOut.empty, allocBetween_self]
  | e :: rest, s, h => by
    obtain ⟨h1, h2, h3⟩ := step_spec s e h
    obtain ⟨h4, h5, h6⟩ := run_spec rest (DaemonClient.step s e).1 h1
    rw [run_cons]
    refine ⟨h4, ?_, ?_⟩
    · rw [callCount_cons]
      push_cast
      rw [h5, h2]
      ring
    · intro id
      have hmid1 : s.nextId ≤ (DaemonClient.step s e).1.nextId := by
        rw [h2]; have : (0 : Int) ≤ (callInc e : Int) := by positivity
        omega
      have hmid2 : (DaemonClient.step s e).1.nextId
          ≤ (DaemonClient.run (DaemonClient.step s e).1 rest).1.nextId := by
        rw [h5]; have : (0 : Int) ≤ (callCount rest : Int) := by positivity
        omega
      have hA := h3 id
      have hB := h6 id
      simp only [StepOut.append, settledCountFor, List.countP_append] at *
      rw [← allocBetween_trans s.nextId (DaemonClient.step s e).1.nextId
          (DaemonClient.run (DaemonClient.step s e).1 rest).1.nextId id hmid1 hmid2]
      omega

lemma run_append :
    ∀ (l1 l2 : List ClientEvent) (s : DaemonClient),
      (DaemonClient.run s (l1 ++ l2)).1 = (DaemonClient.run (DaemonClient.run s l1).1 l2).1
  | [], l2, s => rfl
  | e :: rest, l2, s => by
    rw [List.cons_append, run_cons, run_cons]
    exact run_append rest l2 (DaemonClient.step s e).1

lemma step_ids (s : DaemonClient) (e : ClientEvent) (hInv : ClientInv s) :
    (∀ st ∈ (DaemonClient.step s e).2.settled, st.id ∈ s.pending.map PendEntry.id)
    ∧ (∀ x ∈ (DaemonClient.step s e).1.pending,
        x.id ∈ s.pending.map PendEntry.id ∨ s.nextId ≤ x.id) := by
  cases e with
  | call m p =>
    refine ⟨by simp [DaemonClient.step], ?_⟩
    intro x hx
    simp only [DaemonClient.step, List.mem_append, List.mem_singleton] at hx
    rcases hx with hx | hx
    · exact Or.inl (List.mem_map_of_mem PendEntry.id hx)
    · subst hx
      exact Or.inr (by simp)
  | subscribe name =>
    exact ⟨by simp [DaemonClient.step, StepOut.empty], fun x hx =>
      Or.inl (List.mem_map_of_mem PendEntry.id hx)⟩
  | close =>
    refine ⟨?_, by simp [DaemonClient.step]⟩
    intro st hst
    simp only [DaemonClient.step, List.mem_map] at hst
    obtain ⟨x, hx, hxe⟩ := hst
    rw [← hxe]
    exact List.mem_map_of_mem PendEntry.id hx
  | timerFire n =>
    rcases hf : s.timers.find? (fun x => x.id == n) with _ | en
    · have hstep : DaemonClient.step s (ClientEvent.timerFire n) = (s, StepOut.empty) := by
        simp [DaemonClient.step, hf]
      rw [hstep]
      exact ⟨by simp [StepOut.empty], fun x hx => Or.inl (List.mem_map_of_mem PendEntry.id hx)⟩
    · have hmem : en ∈ s.pending := hInv.timers_eq ▸ List.mem_of_find?_eq_some hf
      have hstep : DaemonClient.step s (ClientEvent.timerFire n) =
          ({ s with pending := s.pending.filter (fun x => x.id != n),
                    timers := s.timers.filter (fun x => x.id != n) },
            { settled := [{ id := en.id, outcome := Outcome.rejected none (timeoutMessage en.method s.timeout) }],
              sent := [] }) := by
        simp [DaemonClient.step, hf]
      rw [hstep]
      refine ⟨?_, ?_⟩
      · intro st hst
        simp only [List.mem_singleton] at hst
        subst hst
        exact List.mem_map_of_mem PendEntry.id hmem
      · intro x hx
        exact Or.inl (List.mem_map_of_mem PendEntry.id (List.mem_of_mem_filter hx))
  | recv msg =>
    rcases hmid : msg.id with _ | rid
    · have hstep : DaemonClient.step s (ClientEvent.recv msg) = (s, StepOut.empty) := by
        simp [DaemonClient.step, hmid]
      rw [hstep]
      exact ⟨by simp [StepOut.empty], fun x hx => Or.inl (List.mem_map_of_mem PendEntry.id hx)⟩
    · rcases hmm : msg.method with _ | mth
      · rcases rid with rs | rn
        · have hstep : DaemonClient.step s (ClientEvent.recv msg) = (s, StepOut.empty) := by
            simp [DaemonClient.step, hmid, hmm]
          rw [hstep]
          exact ⟨by simp [StepOut.empty], fun x hx => Or.inl (List.mem_map_of_mem PendEntry.id hx)⟩
        · rcases hf : s.pending.find? (fun x => x.id == rn) with _ | en
          · have hstep : DaemonClient.step s (ClientEvent.recv msg) = (s, StepOut.empty) := by
              simp [DaemonClient.step, hmid, hmm, hf]
            rw [hstep]
            exact ⟨by simp [StepOut.empty], fun x hx => Or.inl (List.mem_map_of_mem PendEntry.id hx)⟩
          · have hmem : en ∈ s.pending := List.mem_of_find?_eq_some hf
            have hstep : DaemonClient.step s (ClientEvent.recv msg) =
                ({ s with pending := s.pending.filter (fun x => x.id != rn),
                          timers := s.timers.filter (fun x => x.id != rn) },
                  { settled := [{ id := en.id, outcome :=
                      match msg.error with
                      | some err => Outcome.rejected (some err.code) err.message
                      | none => Outcome.resolved }],
                    sent := [] }) := by
              simp [DaemonClient.step, hmid, hmm, hf]
            rw [hstep]
            refine ⟨?_, ?_⟩
            · intro st hst
              simp only [List.mem_singleton] at hst
              subst hst
              exact List.mem_map_of_mem PendEntry.id hmem
            · intro x hx
              exact Or.inl (List.mem_map_of_mem PendEntry.id (List.mem_of_mem_filter hx))
      · have hstep : DaemonClient.step s (ClientEvent.recv msg) = (s, StepOut.empty) := by
          simp [DaemonClient.step, hmid, hmm]
        rw [hstep]
        exact ⟨by simp [StepOut.empty], fun x hx => Or.inl (List.mem_map_of_mem PendEntry.id hx)⟩

lemma run_ids :
    ∀ (evs : List ClientEvent) (s : DaemonClient), ClientInv s →
      ∀ st ∈ (DaemonClient.run s evs).2.settled,
        st.id ∈ s.pending.map PendEntry.id ∨ s.nextId ≤ st.id
  | [], s, _, st, hst => by simp [DaemonClient.run, StepOut.empty] at hst
  | e :: rest, s, h, st, hst => by
    obtain ⟨h1, h2, _⟩ := step_spec s e h
    rw [run_cons] at hst
    simp only [StepOut.append, List.mem_append] at hst
    rcases hst with hst | hst
    · exact Or.inl ((step_ids s e h).1 st hst)
    · rcases run_ids rest (DaemonClient.step s e).1 h1 st hst with hin | hge
      · simp only [List.mem_map] at hin
        obtain ⟨x, hx, hxe⟩ := hin
        rcases (step_ids s e h).2 x hx with hin2 | hge2
        · exact Or.inl (hxe ▸ hin2)
        · exact Or.inr (by rw [← hxe]; exact hge2)
      · refine Or.inr ?_
        have : s.nextId ≤ (DaemonClient.step s e).1.nextId := by
          rw [h2]; have : (0 : Int) ≤ (callInc e : Int) := by positivity
          omega
        omega

/-- The client state reached after a trace of events, starting fresh. -/
def preCloseState (evs : List ClientEvent) : DaemonClient :=
  (DaemonClient.run initClient evs).1

/-- The `close()` call performed on that state (client.ts lines 105-113). -/
def closeStep (evs : List ClientEvent) : DaemonClient × StepOut :=
  DaemonClient.step (preCloseState evs) ClientEvent.close

/-- C1: for every trace of client events from a fresh client, (i) the
pending table never holds two entries for one id, (ii) the armed timers are
exactly the pending entries, (iii) each allocated id (the n-th `call` gets
id n) is settled exactly once minus its still-pending occurrence — so a
call's promise is settled at most once, a settled id is no longer pending,
and an unsettled id is still pending — and (iv) a trace ending in `close`
leaves the pending table empty, hence by (iii) every call issued in it is
settled exactly once (by response, timeout, or close). -/
theorem daemonClient_call_settles_exactly_once (evs : List ClientEvent) (id : Int) :
    ((DaemonClient.run initClient evs).1.pending.map PendEntry.id).Nodup
    ∧ (DaemonClient.run initClient evs).1.timers = (DaemonClient.run initClient evs).1.pending
    ∧ settledCountFor (DaemonClient.run initClient evs).2.settled id
        + pendCountFor (DaemonClient.run initClient evs).1 id
      = (if 1 ≤ id ∧ id < 1 + (callCount evs : Int) then 1 else 0)
    ∧ (DaemonClient.run initClient (evs ++ [ClientEvent.close])).1.pending = [] := by
  obtain ⟨hInv, hNext, hCount⟩ := run_spec evs initClient initClient_inv
  refine ⟨hInv.nodup, hInv.timers_eq, ?_, ?_⟩
  · have h0 : pendCountFor initClient id = 0 := by simp [pendCountFor, initClient, mkClient]
    have := hCount id
    rw [h0, hNext] at this
    simpa [allocBetween, initClient, mkClient] using this
  · rw [run_append]
    rfl

/-- C8: `DaemonClient.close()` (i) rejects exactly the still-pending calls,
each with the "Client closed" error, (ii) empties the pending table, clears
every armed timer, clears the notification-handler lists and closes the
transport, and (iii) no settlement performed by any later event has the id
of a call that was pending at close (its timer was cleared, and a stale
response for it is dropped): every id settled afterwards is a strictly
newer allocation. -/
theorem daemonClient_close_rejects_pending (evs evs2 : List ClientEvent) :
    (closeStep evs).2.settled
      = (preCloseState evs).pending.map
          (fun e => { id := e.id, outcome := Outcome.rejected none "Client closed" })
    ∧ (closeStep evs).1.pending = []
    ∧ (closeStep evs).1.timers = []
    ∧ (closeStep evs).1.notifHandlers = []
    ∧ (closeStep evs).1.transportClosed = true
    ∧ (∀ e ∈ (preCloseState evs).pending, e.id < (preCloseState evs).nextId)
    ∧ (∀ st ∈ (DaemonClient.run (closeStep evs).1 evs2).2.settled,
        (preCloseState evs).nextId ≤ st.id) := by
  have hInv1 : ClientInv (preCloseState evs) :=
    (run_spec evs initClient initClient_inv).1
  obtain ⟨hInv2, _, _⟩ := step_spec (preCloseState evs) ClientEvent.close hInv1
  refine ⟨rfl, rfl, rfl, rfl, rfl, ?_, ?_⟩
  · intro e he
    exact (hInv1.bounded e he).2
  · intro st hst
    rcases run_ids evs2 (closeStep evs).1 hInv2 st hst with hin | hge
    · simp only [closeStep, DaemonClient.step, List.map_nil] at hin
      exact absurd hin (List.not_mem_nil st.id)
    · exact hge

/-- Witness for the close theorem at a concrete trace: closing while call 1
is pending, then firing a later timer, only ever settles the strictly newer
call 2. -/
theorem daemonClient_close_rejects_pending_witness :
    ({ id := 1, method := "task.list" } : PendEntry).id
        < (preCloseState [ClientEvent.call "task.list" none]).nextId
    ∧ (preCloseState [ClientEvent.call "task.list" none]).nextId
        ≤ ({ id := 2, outcome := Outcome.rejected none (timeoutMessage "x" 30000) } : Settlement).id := by
  have h := daemonClient_close_rejects_pending [ClientEvent.call "task.list" none]
    [ClientEvent.call "x" none, ClientEvent.timerFire 2]
  exact ⟨h.2.2.2.2.2.1 _ (by decide), h.2.2.2.2.2.2 _ (by decide)⟩

/-- C2: for any inbound request, when no handler is registered for its
method the server responds with error code -32601 (METHOD_NOT_FOUND), and
when the registered handler throws or its promise rejects, the fault is
caught and converted to a response with error code -32603 (INTERNAL_ERROR)
and the error's message text; `DaemonServer.handleMessage` is a total
function into responses, so a handler fault never escapes it — the server
does not crash. -/
theorem daemonServer_error_responses (st : DaemonServer) (now : Int) (rid : RpcId)
    (m : String) (p : Option JVal) :
    (lookupHandler st.handlers m = none →
      DaemonServer.handleMessage st now (mkRequest rid m p)
        = some (mkErrorResponse rid { code := -32601, message := "Method not found: " ++ m }))
    ∧ (∀ h emsg, lookupHandler st.handlers m = some h → h now p = Except.error emsg →
      DaemonServer.handleMessage st now (mkRequest rid m p)
        = some (mkErrorResponse rid { code := -32603, message := emsg })) := by
  constructor
  · intro hnone
    simp [DaemonServer.handleMessage, mkRequest, hnone, METHOD_NOT_FOUND]
  · intro h emsg hsome herr
    simp [DaemonServer.handleMessage, mkRequest, hsome, herr, INTERNAL_ERROR]

/-- A server whose `task.get` handler always throws, for evaluating the
fault path at a concrete input. -/
def failingServer : DaemonServer :=
  { handlers := registerMethod (mkServer 0).handlers "task.get" (fun _ _ => Except.error "boom"),
    startTime := 0 }

/-- Witness: the unregistered method "foo.bar" yields -32601, and a
throwing handler yields -32603 with the thrown message. -/
theorem daemonServer_error_responses_witness :
    DaemonServer.handleMessage (mkServer 0) 0 (mkRequest (RpcId.num 1) "foo.bar" none)
      = some (mkErrorResponse (RpcId.num 1) { code := -32601, message := "Method not found: foo.bar" })
    ∧ DaemonServer.handleMessage failingServer 0 (mkRequest (RpcId.num 2) "task.get" none)
      = some (mkErrorResponse (RpcId.num 2) { code := -32603, message := "boom" }) :=
  ⟨(daemonServer_error_responses (mkServer 0) 0 (RpcId.num 1) "foo.bar" none).1 rfl,
    (daemonServer_error_responses failingServer 0 (RpcId.num 2) "task.get" none).2
      (fun _ _ => Except.error "boom") "boom" rfl rfl⟩

lemma lookup_eq_none_of_not_mem {β : Type} :
    ∀ (l : List (String × β)) (m : String),
      m ∉ l.map Prod.fst → List.lookup m l = none
  | [], _, _ => rfl
  | (k, v) :: rest, m, h => by
    simp only [List.map_cons, List.mem_cons, not_or] at h
    have hk : (m == k) = false := by
      simp only [beq_eq_false_iff_ne, ne_eq]
      exact fun hmk => h.1 hmk
    simp [List.lookup, hk, lookup_eq_none_of_not_mem rest m h.2]

lemma childServer_handlers_eq (storage : StorageAPI) (startTime : Int) :
    (childServer storage startTime).handlers =
      [("daemon.ping", pingHandler startTime),
       ("task.get", taskGetHandler storage),
       ("task.list", taskListHandler storage),
       ("task.delete", taskDeleteHandler storage),
       ("task.clearHistory", taskClearHistoryHandler storage),
       ("task.getTodos", taskGetTodosHandler storage),
       ("storage.saveTask", storageSaveTaskHandler storage),
       ("storage.updateTaskStatus", storageUpdateTaskStatusHandler storage),
       ("storage.updateTaskSummary", storageUpdateTaskSummaryHandler storage),
       ("storage.addTaskMessage", storageAddTaskMessageHandler storage)] := by
  simp [childServer, registerHandlers, mkServer, registerMethod]

/-- C7: the child-process daemon registers exactly the storage-persistence
subset (plus the built-in `daemon.ping`), so every task-lifecycle RPC sent
to it receives a METHOD_NOT_FOUND (-32601) response. -/
theorem childDaemon_method_subset (storage : StorageAPI) (startTime now : Int) :
    (childServer storage startTime).handlers.map Prod.fst
      = ["daemon.ping", "task.get", "task.list", "task.delete", "task.clearHistory",
         "task.getTodos", "storage.saveTask", "storage.updateTaskStatus",
         "storage.updateTaskSummary", "storage.addTaskMessage"]
    ∧ ∀ rid p m, m ∈ lifecycleMethods →
        DaemonServer.handleMessage (childServer storage startTime) now (mkRequest rid m p)
          = some (mkErrorResponse rid { code := -32601, message := "Method not found: " ++ m }) := by
  have hh := childServer_handlers_eq storage startTime
  constructor
  · rw [hh]
    rfl
  · intro rid p m hm
    have hdis : ∀ x ∈ lifecycleMethods,
        x ∉ ["daemon.ping", "task.get", "task.list", "task.delete", "task.clearHistory",
             "task.getTodos", "storage.saveTask", "storage.updateTaskStatus",
             "storage.updateTaskSummary", "storage.addTaskMessage"] := by decide
    have hnot : m ∉ (childServer storage startTime).handlers.map Prod.fst := by
      rw [hh]
      exact hdis m hm
    have hnone : lookupHandler (childServer storage startTime).handlers m = none :=
      lookup_eq_none_of_not_mem _ m hnot
    simp [DaemonServer.handleMessage, mkRequest, hnone, METHOD_NOT_FOUND]

/-- Witness: `task.start` against the child-process daemon is not found. -/
theorem childDaemon_method_subset_witness :
    DaemonServer.handleMessage (childServer trivialStorage 0) 0
        (mkRequest (RpcId.num 3) "task.start" none)
      = some (mkErrorResponse (RpcId.num 3)
          { code := -32601, message := "Method not found: task.start" }) :=
  (childDaemon_method_subset trivialStorage 0 0).2 (RpcId.num 3) none "task.start" (by decide)

/-! ## Wire-shape lemmas (claim C9) -/

lemma toWire_lookup_jsonrpc (m : Msg) :
    m.toWire.lookup "jsonrpc" = some (JVal.str m.jsonrpc) := rfl

/-- C9 as stated is false: the request the client places on the wire for
`daemon.ping` carries no field named `version` — the protocol-version
marker is the `jsonrpc` field. -/
theorem wire_version_field_counterexample :
    (mkRequest (RpcId.num 1) "daemon.ping" none).toWire.lookup "version" = none
    ∧ ("version", JVal.str "2.0") ∉ (mkRequest (RpcId.num 1) "daemon.ping" none).toWire := by
  constructor
  · rfl
  · intro hmem
    simp [Msg.toWire, mkRequest] at hmem

lemma step_sent_shape (s : DaemonClient) (e : ClientEvent) :
    (DaemonClient.step s e).2.sent = []
    ∨ ∃ mth p2, (DaemonClient.step s e).2.sent = [mkRequest (RpcId.num s.nextId) mth p2] := by
  cases e with
  | call mth p => exact Or.inr ⟨mth, p, rfl⟩
  | subscribe name => exact Or.inl rfl
  | close => exact Or.inl rfl
  | timerFire n =>
    rcases hf : s.timers.find? (fun x => x.id == n) with _ | e2
    · left; simp [DaemonClient.step, hf, StepOut.empty]
    · left; simp [DaemonClient.step, hf]
  | recv msg =>
    rcases hmid : msg.id with _ | rid
    · left; simp [DaemonClient.step, hmid, StepOut.empty]
    · rcases hmm : msg.method with _ | mth
      · rcases rid with rs | rn
        · left; simp [DaemonClient.step, hmid, hmm, StepOut.empty]
        · rcases hf : s.pending.find? (fun x => x.id == rn) with _ | e2
          · left; simp [DaemonClient.step, hmid, hmm, hf, StepOut.empty]
          · left; simp [DaemonClient.step, hmid, hmm, hf]
      · left; simp [DaemonClient.step, hmid, hmm, StepOut.empty]

lemma run_sent_shape :
    ∀ (evs : List ClientEvent) (s : DaemonClient),
      ∀ m ∈ (DaemonClient.run s evs).2.sent, ∃ rid mth p2, m = mkRequest rid mth p2
  | [], s, m, hm => by simp [DaemonClient.run, StepOut.empty] at hm
  | e :: rest, s, m, hm => by
    rw [run_cons] at hm
    simp only [StepOut.append, List.mem_append] at hm
    rcases hm with hm | hm
    · rcases step_sent_shape s e with h0 | ⟨mth, p2, h0⟩
      · rw [h0] at hm
        exact absurd hm (List.not_mem_nil m)
      · rw [h0] at hm
        simp only [List.mem_singleton] at hm
        exact ⟨_, _, _, hm⟩
    · exact run_sent_shape rest (DaemonClient.step s e).1 m hm

lemma handleMessage_jsonrpc (st : DaemonServer) (now : Int) (msg resp : Msg)
    (h : DaemonServer.handleMessage st now msg = some resp) : resp.jsonrpc = "2.0" := by
  unfold DaemonServer.handleMessage at h
  rcases hmid : msg.id with _ | rid <;> rw [hmid] at h
  · exact absurd h (by simp)
  · rcases hmm : msg.method with _ | mth <;> rw [hmm] at h
    · exact absurd h (by simp)
    · dsimp only at h
      rcases hl : lookupHandler st.handlers mth with _ | hd <;> rw [hl] at h
      · injection h with h
        rw [← h]
        rfl
      · dsimp only at h
        rcases hr : hd now msg.params with r | em <;> rw [hr] at h <;> injection h with h <;>
          rw [← h] <;> rfl

/-- C9 amended: every message placed on the wire carries the fixed
protocol-version marker as a field named `jsonrpc` (not `version`) with
value "2.0" — client-built requests (everything `call` hands to
`transport.send`), every response the server sends, and every server
notification — and a wire envelope's keys are drawn from
jsonrpc/id/method/params/result/error. -/
theorem wire_jsonrpc_field (rid : RpcId) (mth : String) (p : Option JVal) :
    (mkRequest rid mth p).toWire.lookup "jsonrpc" = some (JVal.str "2.0")
    ∧ (∀ st now msg resp, DaemonServer.handleMessage st now msg = some resp →
        resp.toWire.lookup "jsonrpc" = some (JVal.str "2.0"))
    ∧ (DaemonServer.notifyMsg mth p).toWire.lookup "jsonrpc" = some (JVal.str "2.0")
    ∧ (∀ s evs, ∀ m ∈ (DaemonClient.run s evs).2.sent,
        m.toWire.lookup "jsonrpc" = some (JVal.str "2.0"))
    ∧ (∀ mm : Msg, ∀ k ∈ mm.toWire.map Prod.fst,
        k ∈ ["jsonrpc", "id", "method", "params", "result", "error"]) := by
  refine ⟨rfl, ?_, rfl, ?_, ?_⟩
  · intro st now msg resp h
    rw [toWire_lookup_jsonrpc, handleMessage_jsonrpc st now msg resp h]
  · intro s evs m hm
    obtain ⟨rid2, mth2, p2, hme⟩ := run_sent_shape evs s m hm
    rw [hme]
    rfl
  · intro mm k hk
    obtain ⟨j, oid, om, op, orr, oe⟩ := mm
    simp only [Msg.toWire, List.map_append, List.mem_append] at hk
    rcases hk with ((((hk | hk) | hk) | hk) | hk) | hk
    · simp at hk
      simp [hk]
    · rcases oid with _ | rid2
      · simp at hk
      · rcases rid2 with rs | rn <;> simp at hk <;> simp [hk]
    · rcases om with _ | m2
      · simp at hk
      · simp at hk
        simp [hk]
    · rcases op with _ | v2
      · simp at hk
      · simp at hk
        simp [hk]
    · rcases orr with _ | v2
      · simp at hk
      · simp at hk
        simp [hk]
    · rcases oe with _ | e2
      · simp at hk
      · simp at hk
        simp [hk]

/-- Witness: a concrete server error response and a concrete client-sent
request both carry `jsonrpc = "2.0"` on the wire. -/
theorem wire_jsonrpc_field_witness :
    (mkErrorResponse (RpcId.num 1)
        { code := -32601, message := "Method not found: foo.bar" }).toWire.lookup "jsonrpc"
      = some (JVal.str "2.0")
    ∧ (mkRequest (RpcId.num 1) "daemon.ping" none).toWire.lookup "jsonrpc"
      = some (JVal.str "2.0") := by
  have h := wire_jsonrpc_field (RpcId.num 1) "daemon.ping" none
  refine ⟨h.2.1 (mkServer 0) 0 (mkRequest (RpcId.num 1) "foo.bar" none) _ rfl, ?_⟩
  exact h.2.2.2.1 initClient [ClientEvent.call "daemon.ping" none] _ (List.mem_singleton_self _)

/-- C4 as stated is false for the IPC transports: after `close()` on the
parent-side child-process transport, `send` still transmits the tagged
envelope on the channel whenever the child handle is connected (close only
removes the inbound listener; it neither marks the transport inert for
sending nor touches `child.connected`). -/
theorem transport_send_after_close_counterexample :
    IpcParent.send
        (IpcParent.closeT { handlers := [0], listenerAttached := true, childConnected := true })
        (mkRequest (RpcId.num 1) "daemon.ping" none)
      = some (IpcRaw.env true (mkRequest (RpcId.num 1) "daemon.ping" none)) := rfl

/-- C4 amended: after `close()`, the in-process linked pair's `send` is a
no-op (even if a handler is registered afterwards, the shared closed flag
keeps it inert). The IPC transports' `close()` only detaches inbound
delivery — afterwards no handler receives anything — while `send` is
unchanged by close: it still transmits the tagged envelope iff the
underlying channel is available (parent side: `child.connected`; child
side: `process.send` present), and is a no-op only when the channel is
unavailable. -/
theorem transport_close_semantics :
    (∀ (p : InProcPair) (m : Msg) (h : Nat),
      InProcPair.serverSend (InProcPair.closePair p) m = []
      ∧ InProcPair.clientSend (InProcPair.closePair p) m = []
      ∧ InProcPair.serverSend (InProcPair.clientOnMessage (InProcPair.closePair p) h) m = []
      ∧ InProcPair.clientSend (InProcPair.serverOnMessage (InProcPair.closePair p) h) m = [])
    ∧ (∀ (tp : IpcParent) (m : Msg) (raw : IpcRaw),
      IpcParent.send (IpcParent.closeT tp) m = IpcParent.send tp m
      ∧ IpcParent.send tp m = (if tp.childConnected then some (IpcRaw.env true m) else none)
      ∧ IpcParent.deliver (IpcParent.closeT tp) raw = [])
    ∧ (∀ (tc : IpcChild) (m : Msg) (raw : IpcRaw),
      IpcChild.send (IpcChild.closeT tc) m = IpcChild.send tc m
      ∧ IpcChild.send tc m = (if tc.sendAvailable then some (IpcRaw.env true m) else none)
      ∧ IpcChild.deliver (IpcChild.closeT tc) raw = []) := by
  refine ⟨?_, ?_, ?_⟩
  · intro p m h
    exact ⟨rfl, rfl, rfl, rfl⟩
  · intro tp m raw
    exact ⟨rfl, rfl, by simp [IpcParent.deliver, IpcParent.closeT]⟩
  · intro tc m raw
    exact ⟨rfl, rfl, by simp [IpcChild.deliver, IpcChild.closeT]⟩

/-! ## Cron lemmas (claims C5, C6, C10, C3) -/

lemma mem_numRangeAux :
    ∀ (n : Nat) (a x : Int), x ∈ numRangeAux a n ↔ a ≤ x ∧ x < a + n
  | 0, a, x => by
    simp [numRangeAux]
  | n + 1, a, x => by
    rw [numRangeAux, List.mem_cons, mem_numRangeAux n (a + 1) x]
    push_cast
    omega

lemma mem_numRange (lo hi x : Int) :
    x ∈ numRange (some lo) (some hi) ↔ lo ≤ x ∧ x ≤ hi := by
  have hr : numRange (some lo) (some hi) = numRangeAux lo (hi - lo + 1).toNat := rfl
  rw [hr, mem_numRangeAux]
  omega

lemma daysInMonth_le_31 (y m : Nat) : daysInMonth y m ≤ 31 := by
  unfold daysInMonth
  split_ifs <;> omega

lemma dayOfWeek_lt_7 (d : DateTime) : dayOfWeek d < 7 :=
  Nat.mod_lt _ (by omega)

/-- The field values a real `Date` can produce (month 1-based as the code
reads `getMonth() + 1`). -/
abbrev ValidDate (d : DateTime) : Prop :=
  1 ≤ d.month ∧ d.month ≤ 12 ∧ 1 ≤ d.day ∧ d.day ≤ daysInMonth d.year d.month
    ∧ d.hour ≤ 23 ∧ d.minute ≤ 59

lemma matchesCron_iff (cron : String) (d : DateTime) :
    matchesCron cron d = true ↔
      ∃ f1 f2 f3 f4 f5, splitWs (trimWs cron) = [f1, f2, f3, f4, f5]
        ∧ (d.minute : Int) ∈ parseCronField f1 0 59
        ∧ (d.hour : Int) ∈ parseCronField f2 0 23
        ∧ (d.day : Int) ∈ parseCronField f3 1 31
        ∧ (d.month : Int) ∈ parseCronField f4 1 12
        ∧ ((dayOfWeek d : Nat) : Int) ∈ parseCronField f5 0 6 := by
  unfold matchesCron
  rcases hsp : splitWs (trimWs cron) with _ | ⟨f1, _ | ⟨f2, _ | ⟨f3, _ | ⟨f4, _ | ⟨f5, _ | ⟨f6, rest⟩⟩⟩⟩⟩⟩
  · simp [matchesCronParts]
  · simp [matchesCronParts]
  · simp [matchesCronParts]
  · simp [matchesCronParts]
  · simp [matchesCronParts]
  · constructor
    · intro hm
      simp only [matchesCronParts, Bool.and_eq_true] at hm
      obtain ⟨⟨⟨⟨h1, h2⟩, h3⟩, h4⟩, h5⟩ := hm
      exact ⟨f1, f2, f3, f4, f5, rfl, by simpa using h1, by simpa using h2,
        by simpa using h3, by simpa using h4, by simpa using h5⟩
    · rintro ⟨g1, g2, g3, g4, g5, heq, h1, h2, h3, h4, h5⟩
      obtain ⟨rfl, rfl, rfl, rfl, rfl⟩ :
          f1 = g1 ∧ f2 = g2 ∧ f3 = g3 ∧ f4 = g4 ∧ f5 = g5 := by
        simpa using heq
      simp [matchesCronParts, h1, h2, h3, h4, h5]
  · simp [matchesCronParts]

/-- C5: `matchesCron` accepts a timestamp iff all five fields (minute,
hour, day-of-month, month, day-of-week) independently accept it — a pure
conjunction with no day-of-month/day-of-week OR special-casing; in
particular "30 9 * * 1-5" matches Monday 2024-01-01 09:30 and not Saturday
2024-01-06 09:30, and "0,15,30,45 * * * *" matches any valid timestamp at
a quarter hour. -/
theorem matchesCron_and_of_all_fields (cron : String) (d : DateTime) :
    (matchesCron cron d = true ↔
      ∃ f1 f2 f3 f4 f5, splitWs (trimWs cron) = [f1, f2, f3, f4, f5]
        ∧ (d.minute : Int) ∈ parseCronField f1 0 59
        ∧ (d.hour : Int) ∈ parseCronField f2 0 23
        ∧ (d.day : Int) ∈ parseCronField f3 1 31
        ∧ (d.month : Int) ∈ parseCronField f4 1 12
        ∧ ((dayOfWeek d : Nat) : Int) ∈ parseCronField f5 0 6)
    ∧ matchesCron "30 9 * * 1-5" { year := 2024, month := 1, day := 1, hour := 9, minute := 30 } = true
    ∧ matchesCron "30 9 * * 1-5" { year := 2024, month := 1, day := 6, hour := 9, minute := 30 } = false
    ∧ (∀ d2 : DateTime, ValidDate d2 →
        (d2.minute = 0 ∨ d2.minute = 15 ∨ d2.minute = 30 ∨ d2.minute = 45) →
        matchesCron "0,15,30,45 * * * *" d2 = true) := by
  refine ⟨matchesCron_iff cron d, by decide, by decide, ?_⟩
  intro d2 hv hm
  rw [matchesCron_iff]
  refine ⟨"0,15,30,45", "*", "*", "*", "*", by decide, ?_, ?_, ?_, ?_, ?_⟩
  · have hpf : parseCronField "0,15,30,45" 0 59 = [0, 15, 30, 45] := by decide
    rw [hpf]
    rcases hm with h | h | h | h <;> simp [h]
  · have hpf : parseCronField "*" 0 23 = numRange (some 0) (some 23) := rfl
    rw [hpf, mem_numRange]
    omega
  · have hpf : parseCronField "*" 1 31 = numRange (some 1) (some 31) := rfl
    have h31 := daysInMonth_le_31 d2.year d2.month
    rw [hpf, mem_numRange]
    omega
  · have hpf : parseCronField "*" 1 12 = numRange (some 1) (some 12) := rfl
    rw [hpf, mem_numRange]
    omega
  · have hpf : parseCronField "*" 0 6 = numRange (some 0) (some 6) := rfl
    have h7 := dayOfWeek_lt_7 d2
    rw [hpf, mem_numRange]
    omega

/-- Witness: a valid date at minute 15 is matched by the quarter-hour
expression. -/
theorem matchesCron_and_of_all_fields_witness :
    matchesCron "0,15,30,45 * * * *"
        { year := 2024, month := 1, day := 2, hour := 8, minute := 15 } = true :=
  (matchesCron_and_of_all_fields "x" { year := 2024, month := 1, day := 2, hour := 8, minute := 15 }).2.2.2
    { year := 2024, month := 1, day := 2, hour := 8, minute := 15 } (by decide)
    (Or.inr (Or.inl rfl))

lemma scanNext_some :
    ∀ (cron : String) (fuel : Nat) (t0 r : DateTime), scanNext cron fuel t0 = some r →
      matchesCron cron r = true
      ∧ ∃ k, k < fuel ∧ r = addOneMinute^[k] t0
          ∧ ∀ j, j < k → matchesCron cron (addOneMinute^[j] t0) = false
  | cron, 0, t0, r => by simp [scanNext]
  | cron, fuel + 1, t0, r => by
    intro h
    rw [scanNext] at h
    by_cases hm : matchesCron cron t0 = true
    · rw [if_pos hm] at h
      injection h with h
      subst h
      exact ⟨hm, 0, by omega, by simp, by omega⟩
    · rw [if_neg hm] at h
      obtain ⟨hr, k, hk, hrek, hj⟩ := scanNext_some cron fuel (addOneMinute t0) r h
      refine ⟨hr, k + 1, by omega, by rw [hrek, Function.iterate_succ_apply], ?_⟩
      intro j hj2
      cases j with
      | zero => simpa using hm
      | succ j2 =>
        rw [Function.iterate_succ_apply]
        exact hj j2 (by omega)

lemma scanNext_none :
    ∀ (cron : String) (fuel : Nat) (t0 : DateTime), scanNext cron fuel t0 = none →
      ∀ k, k < fuel → matchesCron cron (addOneMinute^[k] t0) = false
  | cron, 0, t0 => by omega
  | cron, fuel + 1, t0 => by
    intro h k hk
    rw [scanNext] at h
    by_cases hm : matchesCron cron t0 = true
    · rw [if_pos hm] at h
      exact absurd h (by simp)
    · rw [if_neg hm] at h
      cases k with
      | zero => simpa using hm
      | succ k2 =>
        rw [Function.iterate_succ_apply]
        exact scanNext_none cron fuel (addOneMinute t0) h k2 (by omega)

/-- C6: `getNextRunTime` scans forward minute-by-minute from the next whole
minute for at most 7 days (10080 minutes): a returned instant is the first
matching minute in that window, and `none` means no minute in the window
matches (so `addScheduledTask` leaves `nextRunAt` undefined); for
"0 9 * * 1-5" invoked Tuesday 2024-01-02 at 08:00, `addScheduledTask`
yields `nextRunAt` equal to that same day at 09:00. -/
theorem getNextRunTime_first_match (cron : String) (now : DateTime) :
    (∀ t, getNextRunTime cron now = some t → matchesCron cron t = true)
    ∧ (∀ t, getNextRunTime cron now = some t →
        ∃ k, k < 10080 ∧ t = addOneMinute^[k + 1] now
          ∧ ∀ j, j < k → matchesCron cron (addOneMinute^[j + 1] now) = false)
    ∧ (getNextRunTime cron now = none →
        ∀ k, k < 10080 → matchesCron cron (addOneMinute^[k + 1] now) = false)
    ∧ getNextRunTime "0 9 * * 1-5" { year := 2024, month := 1, day := 2, hour := 8, minute := 0 }
        = some { year := 2024, month := 1, day := 2, hour := 9, minute := 0 }
    ∧ (addScheduledTask "0 9 * * 1-5" "standup"
          { year := 2024, month := 1, day := 2, hour := 8, minute := 0 } "sched-demo").nextRunAt
        = some "2024-01-02T09:00:00.000Z" := by
  refine ⟨?_, ?_, ?_, by decide, by decide⟩
  · intro t ht
    exact (scanNext_some cron (7 * 24 * 60) (addOneMinute now) t ht).1
  · intro t ht
    obtain ⟨hm, k, hk, hte, hj⟩ := scanNext_some cron (7 * 24 * 60) (addOneMinute now) t ht
    refine ⟨k, by omega, by rw [hte, Function.iterate_succ_apply], ?_⟩
    intro j hj2
    rw [Function.iterate_succ_apply]
    exact hj j hj2
  · intro h k hk
    rw [Function.iterate_succ_apply]
    exact scanNext_none cron (7 * 24 * 60) (addOneMinute now) h k (by omega)

/-- Witness: the scanned instant for the standup schedule is indeed a
matching minute. -/
theorem getNextRunTime_first_match_witness :
    matchesCron "0 9 * * 1-5" { year := 2024, month := 1, day := 2, hour := 9, minute := 0 } = true :=
  (getNextRunTime_first_match "0 9 * * 1-5"
      { year := 2024, month := 1, day := 2, hour := 8, minute := 0 }).1
    { year := 2024, month := 1, day := 2, hour := 9, minute := 0 } (by decide)

lemma matchesCronParts_ne5 :
    ∀ (l : List String) (d : DateTime), l.length ≠ 5 → matchesCronParts l d = false
  | [], _, _ => rfl
  | [_], _, _ => rfl
  | [_, _], _, _ => rfl
  | [_, _, _], _, _ => rfl
  | [_, _, _, _], _, _ => rfl
  | [_, _, _, _, _], _, h => absurd rfl h
  | _ :: _ :: _ :: _ :: _ :: _ :: _, _, _ => rfl

lemma scanNext_never :
    ∀ (cron : String) (fuel : Nat) (t : DateTime),
      (∀ u, matchesCron cron u = false) → scanNext cron fuel t = none
  | cron, 0, t, _ => rfl
  | cron, fuel + 1, t, hnever => by
    rw [scanNext, if_neg (by simp [hnever t])]
    exact scanNext_never cron fuel (addOneMinute t) hnever

/-- C10: a cron string whose trimmed whitespace-split does not have exactly
five fields matches no timestamp (no error is raised — `matchesCron` just
returns false), so `getNextRunTime` finds nothing, `addScheduledTask`
leaves `nextRunAt` undefined, and `tick` never fires a task scheduled with
such an expression. -/
theorem malformed_cron_never_fires (cron : String) (d now : DateTime)
    (p gid : String) (cb : Bool) (t : ScheduledTask)
    (h : (splitWs (trimWs cron)).length ≠ 5) :
    matchesCron cron d = false
    ∧ getNextRunTime cron now = none
    ∧ (addScheduledTask cron p now gid).nextRunAt = none
    ∧ (t.cron = cron → tick now cb [t] = ([], [t])) := by
  have hnever : ∀ u : DateTime, matchesCron cron u = false := fun u =>
    matchesCronParts_ne5 (splitWs (trimWs cron)) u h
  have hnone : getNextRunTime cron now = none :=
    scanNext_never cron (7 * 24 * 60) (addOneMinute now) hnever
  refine ⟨hnever d, hnone, by simp [addScheduledTask, hnone], ?_⟩
  intro ht
  have hone : tickOne now cb t = ([], t) := by
    unfold tickOne
    rw [ht]
    cases henb : t.enabled <;> simp [hnever now]
  simp [tick, hone]

/-- The scheduled task used for concrete scheduler evaluations. -/
def demoBadTask : ScheduledTask :=
  { id := "s9", cron := "1 2 3 4", prompt := "p", enabled := true,
    createdAt := "2024-01-02T07:00:00.000Z", lastRunAt := none, nextRunAt := none }

/-- Witness: the four-field expression "1 2 3 4" never matches and never
fires. -/
theorem malformed_cron_never_fires_witness :
    matchesCron "1 2 3 4" { year := 2024, month := 1, day := 2, hour := 8, minute := 0 } = false
    ∧ getNextRunTime "1 2 3 4" { year := 2024, month := 1, day := 2, hour := 8, minute := 0 } = none
    ∧ (addScheduledTask "1 2 3 4" "p" { year := 2024, month := 1, day := 2, hour := 8, minute := 0 }
        "id1").nextRunAt = none
    ∧ (demoBadTask.cron = "1 2 3 4" →
        tick { year := 2024, month := 1, day := 2, hour := 8, minute := 0 } true [demoBadTask]
          = ([], [demoBadTask])) :=
  malformed_cron_never_fires "1 2 3 4"
    { year := 2024, month := 1, day := 2, hour := 8, minute := 0 }
    { year := 2024, month := 1, day := 2, hour := 8, minute := 0 }
    "p" "id1" true demoBadTask (by decide)

/-- The scheduled task used for the tick-ordering evaluation. -/
def demoEveryMinuteTask : ScheduledTask :=
  { id := "s1", cron := "* * * * *", prompt := "p", enabled := true,
    createdAt := "2024-01-02T07:00:00.000Z", lastRunAt := none, nextRunAt := none }

/-- C3 as stated is false: in `tick()` the fire callback is NOT invoked
first — on a matching minute the trace begins with the `lastRunAt` write,
then the `nextRunAt` recomputation, and the callback runs last (receiving
the already-updated task). -/
theorem tick_callback_order_counterexample :
    (tick { year := 2024, month := 1, day := 2, hour := 8, minute := 0 } true
        [demoEveryMinuteTask]).1
      = [TickAction.setLastRunAt "s1" "2024-01-02T08:00:00.000Z",
         TickAction.setNextRunAt "s1" (some "2024-01-02T08:01:00.000Z"),
         TickAction.fireCallback
           { demoEveryMinuteTask with
              lastRunAt := some "2024-01-02T08:00:00.000Z",
              nextRunAt := some "2024-01-02T08:01:00.000Z" }]
    ∧ (tick { year := 2024, month := 1, day := 2, hour := 8, minute := 0 } true
        [demoEveryMinuteTask]).1.head?
      ≠ some (TickAction.fireCallback
          { demoEveryMinuteTask with
              lastRunAt := some "2024-01-02T08:00:00.000Z",
              nextRunAt := some "2024-01-02T08:01:00.000Z" }) := by
  constructor
  · decide
  · decide

/-- C3 amended: for every enabled task whose cron matches the current
minute, `tick()` first records `lastRunAt = now` and recomputes
`nextRunAt`, and only afterwards synchronously invokes the fire callback
(when one is set), passing the already-updated task. -/
theorem tick_updates_before_callback (pre post : List ScheduledTask) (t : ScheduledTask)
    (now : DateTime) (cb : Bool) (h1 : t.enabled = true)
    (h2 : matchesCron t.cron now = true) :
    (tick now cb (pre ++ t :: post)).1
      = (tick now cb pre).1
        ++ ([TickAction.setLastRunAt t.id (toISO now),
             TickAction.setNextRunAt t.id ((getNextRunTime t.cron now).map toISO)]
            ++ (if cb then [TickAction.fireCallback (firedTask t now)] else []))
        ++ (tick now cb post).1 := by
  induction pre with
  | nil =>
    simp only [List.nil_append, tick]
    rw [show tickOne now cb t
        = ([TickAction.setLastRunAt t.id (toISO now),
            TickAction.setNextRunAt t.id ((getNextRunTime t.cron now).map toISO)]
            ++ (if cb then [TickAction.fireCallback (firedTask t now)] else []), firedTask t now)
      from by simp [tickOne, h1, h2, firedTask]]
  | cons q pre2 ih =>
    simp only [List.cons_append, tick, List.append_eq]
    rw [ih]
    simp [List.append_assoc]

/-- Witness: at a concrete matching minute the trace is exactly
[setLastRunAt, setNextRunAt, fireCallback]. -/
theorem tick_updates_before_callback_witness :
    (tick { year := 2024, month := 1, day := 2, hour := 8, minute := 0 } true
        ([] ++ demoEveryMinuteTask :: [])).1
      = (tick { year := 2024, month := 1, day := 2, hour := 8, minute := 0 } true []).1
        ++ ([TickAction.setLastRunAt "s1"
              (toISO { year := 2024, month := 1, day := 2, hour := 8, minute := 0 }),
             TickAction.setNextRunAt "s1"
              ((getNextRunTime "* * * * *"
                  { year := 2024, month := 1, day := 2, hour := 8, minute := 0 }).map toISO)]
            ++ (if true then
                 [TickAction.fireCallback
                   (firedTask demoEveryMinuteTask
                     { year := 2024, month := 1, day := 2, hour := 8, minute := 0 })]
               else []))
        ++ (tick { year := 2024, month := 1, day := 2, hour := 8, minute := 0 } true []).1 :=
  tick_updates_before_callback [] [] demoEveryMinuteTask
    { year := 2024, month := 1, day := 2, hour := 8, minute := 0 } true rfl (by decide)
